import Mathlib

/-!
Verification of the bacpypes snapshot/replay sample against its design
specification.

The development shallowly embeds the three Python modules:

* `db.py` — a sqlite-backed snapshot store keyed by (devid, objid, propid),
  with pickled values (namespace `Db`);
* `replay.py` — a shelve-backed snapshot store with the same key shape, the
  `ReplayApplication` device-model builder, and the `main` topology
  construction (namespace `Replay`);
* `dump.py` — the companion dump utility (namespace `Dump`).

Values stored in the snapshot are modelled by the inductive `PValue`
(atomic scalars, nested sequences, and object-like values carrying
auxiliary inspection data, mirroring the serializable values the Python
code round-trips through `pickle`).  Python library functions used by the
code (`pickle.dumps`/`pickle.loads`, `str.split`, `str(int)`, `int(str)`,
`enumerate`) are given executable models below; each is marked with a
comment naming the Python behaviour it models.
-/

/-- A serializable property value: an atomic scalar, a nested sequence, or
an object-like value with a class tag and auxiliary inspection data (the
`debug_contents` attribute dictionary). -/
inductive PValue where
  | atom (s : String)
  | seq (vs : List PValue)
  | obj (cls : String) (aux : List (String × String))

/-- A token of the serialized byte stream produced by the pickle model. -/
inductive PTok where
  | atomT (s : String)
  | seqT (n : Nat)
  | objT (cls : String) (aux : List (String × String))
deriving DecidableEq

mutual
/-- Modelled from the spec: `pickle.dumps` of the Python standard library
(external to the repository).  Serializes a `PValue` to a token stream;
`pickleLoads` below is its inverse, so the pair realizes the opaque,
structure-preserving serialization the store contract requires. -/
def pickleDumps : PValue → List PTok
  | .atom s => [.atomT s]
  | .obj c a => [.objT c a]
  | .seq vs => .seqT vs.length :: pickleDumpsL vs

/-- Serialization of a list of values, concatenated. -/
def pickleDumpsL : List PValue → List PTok
  | [] => []
  | v :: vs => pickleDumps v ++ pickleDumpsL vs
end

/-- Fuel-indexed decoder: reads `n` consecutive values from a token stream,
returning them with the unconsumed remainder. -/
def decodeN : Nat → Nat → List PTok → Option (List PValue × List PTok)
  | 0, _, _ => none
  | _ + 1, 0, toks => some ([], toks)
  | fuel + 1, n + 1, toks =>
    match toks with
    | [] => none
    | .atomT s :: rest =>
      match decodeN fuel n rest with
      | some (vs, r) => some (.atom s :: vs, r)
      | none => none
    | .objT c a :: rest =>
      match decodeN fuel n rest with
      | some (vs, r) => some (.obj c a :: vs, r)
      | none => none
    | .seqT k :: rest =>
      match decodeN fuel k rest with
      | some (ws, r) =>
        match decodeN fuel n r with
        | some (vs, r2) => some (.seq ws :: vs, r2)
        | none => none
      | none => none

/-- Modelled from the spec: `pickle.loads` of the Python standard library
(external to the repository).  Decodes a full token stream back to the
value it serializes; `none` on malformed input. -/
def pickleLoads (toks : List PTok) : Option PValue :=
  match decodeN (toks.length + 1) 1 toks with
  | some ([v], []) => some v
  | _ => none

/-- The composite key of one stored record: (device identifier, object
identifier, property identifier), as produced by `eval` of the stored key
string in `replay.py`/`dump.py` and by the three key columns in `db.py`. -/
structure SKey where
  devid : Int
  objid : String
  propid : String
deriving DecidableEq

/-- Python exceptions surfaced by the embedded code paths. -/
inductive PyErr where
  | keyError (k : SKey)
  | valueError (msg : String)
  | unpickling
deriving DecidableEq

/-- `pickle.loads` as the Python call site sees it: raises (here: returns
`.error`) on malformed input instead of silently returning wrong data. -/
def pickleLoadsE (toks : List PTok) : Except PyErr PValue :=
  match pickleLoads toks with
  | some v => .ok v
  | none => .error .unpickling

/-- One record as yielded by `Snapshot.items` in both stores:
`(devid, objid, propid, value)`. -/
structure ItemRec where
  devid : Int
  objid : String
  propid : String
  value : PValue

/-- Modelled from the spec: the single-separator `str.split` of Python
(used by both `replay.py` and the object-identifier parsing).  The worker
carries the reversed current chunk. -/
def splitCore (sep : Char) : List Char → List Char → List String
  | [], cur => [String.mk cur.reverse]
  | c :: cs, cur =>
    if c = sep then String.mk cur.reverse :: splitCore sep cs []
    else splitCore sep cs (c :: cur)

/-- Python `s.split(sep)` for a one-character separator. -/
def pysplit (s : String) (sep : Char) : List String :=
  splitCore sep s.data []

/-- Decimal digit character, as in Python `str(int)`. -/
def digitCharP (n : Nat) : Char := Char.ofNat (48 + n)

/-- Digit list of a natural number, most significant first (fuel-driven). -/
def natStrAux : Nat → Nat → List Char
  | 0, _ => []
  | fuel + 1, n =>
    if n < 10 then [digitCharP n]
    else natStrAux fuel (n / 10) ++ [digitCharP (n % 10)]

/-- Modelled from the spec: Python `str(n)` for a natural number. -/
def natStr (n : Nat) : String := String.mk (natStrAux (n + 1) n)

/-- Modelled from the spec: Python `str(d)` for an integer, as used by
`"device:{}".format(device_id)` and the configuration error messages. -/
def intStr : Int → String
  | .ofNat m => natStr m
  | .negSucc m => "-" ++ natStr (m + 1)

/-- Worker for decimal parsing: consumes digit characters into an
accumulator, failing on the first non-digit. -/
def parseDigitsAux : List Char → Nat → Option Nat
  | [], acc => some acc
  | c :: cs, acc =>
    if c.isDigit then parseDigitsAux cs (acc * 10 + (c.toNat - 48)) else none

/-- Modelled from the spec: Python `int(s)` on a string (decimal, optional
leading minus); `none` models the `ValueError` raised on malformed input. -/
def parseIntOpt (s : String) : Option Int :=
  match s.data with
  | [] => none
  | '-' :: cs =>
    if cs.isEmpty then none
    else (parseDigitsAux cs 0).map (fun n => -(n : Int))
  | cs => (parseDigitsAux cs 0).map (fun n => (n : Int))

/-- Modelled from the spec: Python `enumerate(xs, start)`; used by the
dump utility's indexed printing and by `main`'s peer address loop. -/
def enumFrom {α : Type} (i : Nat) : List α → List (Nat × α)
  | [] => []
  | x :: xs => (i, x) :: enumFrom (i + 1) xs

/-- Generic association-list lookup (first match wins), the model of a
Python dict read and of `shelve` point lookup. -/
def alookup {κ β : Type} [BEq κ] (l : List (κ × β)) (k : κ) : Option β :=
  (l.find? (fun e => e.1 == k)).map (fun e => e.2)

/-- Python dict write semantics: replace in place if the key exists
(keeping its position), otherwise append. -/
def assocSet (props : List (String × PValue)) (p : String) (v : PValue) :
    List (String × PValue) :=
  match props with
  | [] => [(p, v)]
  | (p', v') :: rest =>
    if p' = p then (p, v) :: rest else (p', v') :: assocSet rest p v

namespace Db

/-- One row of the sqlite `snapshot` table of `db.py`: the three key
columns and the pickled value blob. -/
structure Row where
  key : SKey
  value : List PTok

/-- The `snapshot` table, rows in rowid (insertion) order; the primary key
constraint on (devid, objid, propid) is maintained by `setitem`. -/
abbrev Snapshot := List Row

/-- `db.py` `Snapshot.__getitem__` (lines 26-38): select the value for the
exact key; `None` sentinel when no row matches, otherwise unpickle. -/
def getitem (db : Snapshot) (item : SKey) : Except PyErr (Option PValue) :=
  match db.find? (fun r => r.key == item) with
  | none => .ok none
  | some r =>
    match pickleLoadsE r.value with
    | .ok v => .ok (some v)
    | .error e => .error e

/-- `db.py` `Snapshot.__setitem__` (lines 40-55): try to insert; on the
integrity (primary key) violation, update the value of the existing row in
place. -/
def setitem (db : Snapshot) (item : SKey) (value : PValue) : Snapshot :=
  if db.any (fun r => r.key == item) then
    db.map (fun r => if r.key == item then { r with value := pickleDumps value } else r)
  else
    db ++ [⟨item, pickleDumps value⟩]

/-- The WHERE clause assembled by `db.py` `Snapshot.items`: conjunction of
an equality test per supplied filter; omitted filters impose nothing. -/
def sqlMatch (devid : Option Int) (objid propid : Option String) (k : SKey) : Bool :=
  (match devid with | none => true | some d => k.devid == d) &&
  (match objid with | none => true | some o => k.objid == o) &&
  (match propid with | none => true | some p => k.propid == p)

/-- The yield loop of `db.py` `Snapshot.items`: unpickle each selected row
in order; a malformed blob raises partway through (terminal error). -/
def itemsLoop : List Row → List ItemRec × Option PyErr
  | [] => ([], none)
  | r :: rest =>
    match pickleLoadsE r.value with
    | .error e => ([], some e)
    | .ok v =>
      let out := itemsLoop rest
      (⟨r.key.devid, r.key.objid, r.key.propid, v⟩ :: out.1, out.2)

/-- `db.py` `Snapshot.items` (lines 57-85): filtered iteration over the
table. -/
def items (db : Snapshot) (devid : Option Int) (objid propid : Option String) :
    List ItemRec × Option PyErr :=
  itemsLoop (db.filter (fun r => sqlMatch devid objid propid r.key))

end Db

namespace Replay

/-- The shelve database of `replay.py`: keys are (devid, objid, propid)
triples (stored as `str` of the tuple; `eval` recovers them — modelled
directly as `SKey`), values arbitrary `PValue`s. -/
abbrev Shelf := List (SKey × PValue)

/-- `replay.py` `Snapshot.__getitem__` (lines 93-94): direct shelf lookup;
a missing key raises `KeyError`. -/
def getitem (sh : Shelf) (item : SKey) : Except PyErr PValue :=
  match alookup sh item with
  | some v => .ok v
  | none => .error (.keyError item)

/-- `replay.py` `Snapshot.__setitem__` (lines 96-97): plain shelf (dict)
write — replace in place or append. -/
def setitem (sh : Shelf) (item : SKey) (value : PValue) : Shelf :=
  if sh.any (fun e => e.1 == item) then
    sh.map (fun e => if e.1 == item then (e.1, value) else e)
  else
    sh ++ [(item, value)]

/-- Outcome of the per-record filter checks in `replay.py`
`Snapshot.items`: yield it, skip it (`continue`), or raise. -/
inductive StepRes where
  | yield
  | skipR
  | err (e : PyErr)
deriving DecidableEq

/-- The property-identifier check of `Snapshot.items` (lines 128-130). -/
def itemStepProp (propid : Option String) (k : SKey) : StepRes :=
  match propid with
  | some pp => if k.propid ≠ pp then .skipR else .yield
  | none => .yield

/-- The object-identifier check of `Snapshot.items` (lines 115-125),
exactly as written: after the whole-identifier test, the record's object
identifier is unconditionally split at `:` (raising when it does not split
into exactly two parts) and compared — as the full string — against its
own type part. -/
def itemStepObj (objid : Option String) (objinst : String) (propid : Option String)
    (k : SKey) : StepRes :=
  match objid with
  | some oid =>
    if objinst ≠ "" ∧ k.objid ≠ oid then .skipR
    else
      match pysplit k.objid ':' with
      | [ot, _oi] => if k.objid ≠ ot then .skipR else itemStepProp propid k
      | _ => .err (.valueError "unpack")
  | none => itemStepProp propid k

/-- The device-identifier check of `Snapshot.items` (lines 111-113). -/
def itemStep (devid : Option Int) (objid propid : Option String) (objinst : String)
    (k : SKey) : StepRes :=
  match devid with
  | some dd => if k.devid ≠ dd then .skipR else itemStepObj objid objinst propid k
  | none => itemStepObj objid objinst propid k

/-- The iteration loop of `replay.py` `Snapshot.items`: records yielded
before a raise are kept, and the raise is the terminal error. -/
def itemsLoop (devid : Option Int) (objid propid : Option String) (objinst : String) :
    Shelf → List ItemRec × Option PyErr
  | [] => ([], none)
  | (k, v) :: rest =>
    match itemStep devid objid propid objinst k with
    | .skipR => itemsLoop devid objid propid objinst rest
    | .err e => ([], some e)
    | .yield =>
      let out := itemsLoop devid objid propid objinst rest
      (⟨k.devid, k.objid, k.propid, v⟩ :: out.1, out.2)

/-- `replay.py` `Snapshot.items` (lines 102-131): computes
`objtype, objinst = (objid + ":").split(":")[:2]` when an object filter is
supplied, then iterates the shelf applying the three checks. -/
def items (sh : Shelf) (devid : Option Int) (objid propid : Option String) :
    List ItemRec × Option PyErr :=
  let objinst : String :=
    match objid with
    | none => ""
    | some oid => ((pysplit (oid ++ ":") ':').take 2).getD 1 ""
  itemsLoop devid objid propid objinst sh

/-- The properties skipped by the device-descriptor loop of
`ReplayApplication.__init__` (lines 474-480): derived properties that are
built in rather than replayed. -/
def excluded_properties : List String :=
  ["localDate", "localTime", "protocolServicesSupported", "propertyList", "objectList"]

/-- `"device:{}".format(device_id)` (line 449). -/
def deviceObjId (device_id : Int) : String := "device:" ++ intStr device_id

/-- The device descriptor assembled by `ReplayApplication.__init__`: the
mandatory identifying properties passed to `LocalDeviceObject` (an
external bacpypes constructor, modelled as this record), plus the
properties assigned by the `setattr` loop. -/
structure DeviceDescriptor where
  objectName : PValue
  objectIdentifier : String × Int
  vendorIdentifier : PValue
  props : List (String × PValue)

/-- One reconstructed object instance: the type and instance number parsed
from the object identifier, and the accumulated property map.
`get_object_class` and the object construction `object_class(**prop_map)`
are external bacpypes calls, modelled as the total constructor of this
record. -/
structure ObjDescriptor where
  object_type : String
  object_instance : Int
  props : List (String × PValue)

/-- The device model a `ReplayApplication` serves: its device descriptor
and its object instances. -/
structure AppModel where
  device : DeviceDescriptor
  objects : List ObjDescriptor

/-- An error escaping `ReplayApplication.__init__`: either the
`ConfigurationError` of `replay.py` or an uncaught Python exception. -/
inductive BErr where
  | config (msg : String)
  | py (e : PyErr)
deriving DecidableEq

/-- The `obj_prop_map` of `ReplayApplication.__init__`: object identifier
→ property map, a Python dict of dicts (insertion order preserved). -/
abbrev GroupMap := List (String × List (String × PValue))

/-- One iteration of the pooling loop (lines 519-524): find or create the
group of the object identifier and set the property in it. -/
def insertGroup (m : GroupMap) (o p : String) (v : PValue) : GroupMap :=
  match m with
  | [] => [(o, [(p, v)])]
  | (o', props) :: rest =>
    if o' = o then (o', assocSet props p v) :: rest
    else (o', props) :: insertGroup rest o p v

/-- One iteration of the grouping loop of `ReplayApplication.__init__`
(lines 513-524): skip the `"-"` placeholder and the device's own object
identifier, otherwise pool the record. -/
def groupStep (device_object_id : String) (m : GroupMap) (r : ItemRec) : GroupMap :=
  if r.objid == "-" || r.objid == device_object_id then m
  else insertGroup m r.objid r.propid r.value

/-- The grouping loop of `ReplayApplication.__init__` (lines 511-524):
pool every yielded record, skipping object identifiers `"-"` and the
device's own. -/
def buildObjPropMap (device_object_id : String) (recs : List ItemRec) : GroupMap :=
  recs.foldl (groupStep device_object_id) []

/-- Lookup of one property of one grouped object in an `obj_prop_map`. -/
def groupLookup (m : GroupMap) (o p : String) : Option PValue :=
  match alookup m o with
  | some props => alookup props p
  | none => none

/-- Lines 527-533: split the object identifier into type and instance,
convert the instance to `int`, and construct the object instance from the
accumulated properties (the construction itself is external, see
`ObjDescriptor`).  A malformed identifier raises. -/
def mkObjDescriptor (entry : String × List (String × PValue)) : Except PyErr ObjDescriptor :=
  match pysplit entry.1 ':' with
  | [object_type, object_instance] =>
    match parseIntOpt object_instance with
    | some inst => .ok ⟨object_type, inst, entry.2⟩
    | none => .error (.valueError "invalid literal for int")
  | _ => .error (.valueError "unpack")

/-- The object-building loop (lines 526-545), in group order; the first
raise aborts construction. -/
def buildObjects : GroupMap → Except PyErr (List ObjDescriptor)
  | [] => .ok []
  | e :: rest =>
    match mkObjDescriptor e with
    | .error err => .error err
    | .ok d =>
      match buildObjects rest with
      | .error err => .error err
      | .ok ds => .ok (d :: ds)

/-- `ReplayApplication.__init__` (lines 442-545), at the device-model
level: extract the mandatory identifying properties (a missing one raises
`ConfigurationError` naming the property and device), run the
device-property `setattr` loop over `items(device_id, device_object_id)`
skipping the excluded properties, then group and build the remaining
objects from `items(device_id)`.  The network-stack wiring of the
constructor is external and carries no device-model content. -/
def replayAppInit (snapshot : Shelf) (device_id : Int) : Except BErr AppModel :=
  let device_object_id := deviceObjId device_id
  match alookup snapshot ⟨device_id, device_object_id, "objectName"⟩ with
  | none => .error (.config ("device " ++ intStr device_id ++ ": object name not found"))
  | some device_object_name =>
    match alookup snapshot ⟨device_id, device_object_id, "vendorIdentifier"⟩ with
    | none => .error (.config ("device " ++ intStr device_id ++ ": vendor identifier not found"))
    | some vendor_identifier =>
      match items snapshot (some device_id) (some device_object_id) none with
      | (_, some e) => .error (.py e)
      | (recs1, none) =>
        let vlan_device : DeviceDescriptor :=
          recs1.foldl
            (fun dev r =>
              if r.propid ∈ excluded_properties then dev
              else { dev with props := assocSet dev.props r.propid r.value })
            ⟨device_object_name, ("device", device_id), vendor_identifier, []⟩
        match items snapshot (some device_id) none none with
        | (_, some e) => .error (.py e)
        | (recs2, none) =>
          match buildObjects (buildObjPropMap device_object_id recs2) with
          | .error e => .error (.py e)
          | .ok objs => .ok ⟨vlan_device, objs⟩

/-- The virtual network topology `main` builds: the router node's
(segment address, device id) and the peer nodes' in construction order. -/
structure Topology where
  router : Nat × Int
  peers : List (Nat × Int)
deriving DecidableEq

/-- Outcome of running `main`: an uncaught exception, `sys.exit(1)` after
the configuration-error message, or the event loop running the topology. -/
inductive MainResult where
  | crash (e : PyErr)
  | exit1 (msg : String)
  | running (topo : Topology)
deriving DecidableEq

/-- Whether a `main` outcome reached the event loop with a live topology
(no network node starts in any other outcome). -/
def MainResult.isRunning : MainResult → Bool
  | .running _ => true
  | _ => false

/-- The peer loop of `main` (lines 724-733): each remaining device id is
built and placed at VLAN address `i + 2` in input order; a
`ConfigurationError` aborts. -/
def mainPeers (snapshot : Shelf) : List Int → Nat → List (Nat × Int) → Except BErr (List (Nat × Int))
  | [], _, acc => .ok acc
  | d :: ds, i, acc =>
    match replayAppInit snapshot d with
    | .error e => .error e
    | .ok _ => mainPeers snapshot ds (i + 1) (acc ++ [(i + 2, d)])

/-- `main` of `replay.py` (lines 633-753), at the topology level: the
first device identifier becomes the router (VLAN node at `Address(1)`,
lines 709-712), the rest become peers at sequential addresses; a
`ConfigurationError` prints a one-line message and exits with status 1
before the event loop (`run()`) starts. -/
def mainModel (devids : List Int) (snapshot : Shelf) : MainResult :=
  match devids with
  | [] => .crash (.valueError "list index out of range")
  | local_device_id :: rest =>
    match replayAppInit snapshot local_device_id with
    | .error (.config m) => .exit1 ("configuration err: " ++ m)
    | .error (.py e) => .crash e
    | .ok _ =>
      match mainPeers snapshot rest 0 [] with
      | .error (.config m) => .exit1 ("configuration err: " ++ m)
      | .error (.py e) => .crash e
      | .ok peers => .running ⟨(1, local_device_id), peers⟩

/-- Well-formedness of a stored object identifier: either the `"-"`
placeholder or a `type:instance` pair with a numeric instance.  Every
snapshot produced by the capture tooling satisfies this; it rules out the
uncaught `ValueError`s of the object-building loop. -/
def wfObjid (o : String) : Bool :=
  o == "-" ||
    ((pysplit o ':').length == 2 && (parseIntOpt ((pysplit o ':').getD 1 "")).isSome)

/-- Well-formedness of a whole shelf. -/
def wfShelf (sh : Shelf) : Bool := sh.all (fun e => wfObjid e.1.objid)

end Replay

namespace Dump

/-- One unit of output of `dump.py`: the three-field header line, the
single line of a scalar-valued record, one indexed element line of a
list-valued record, or a `debug_contents` block (with its indent). -/
inductive Line where
  | header (devid : Int) (objid propid : String)
  | single (devid : Int) (objid propid : String) (value : PValue)
  | indexed (i : Nat) (x : PValue)
  | debugC (indent : Nat) (cls : String) (aux : List (String × String))

/-- Whether a value has a `debug_contents` attribute: in the bacpypes data
model exactly the object-like values do. -/
def PValue.isObj : PValue → Bool
  | .obj _ _ => true
  | _ => false

/-- Output for one element of a list-valued property (lines 45-48): the
indexed line, followed by a `debug_contents` block when the element has
one. -/
def elemLines (q : Nat × PValue) : List Line :=
  Line.indexed q.1 q.2 ::
    (match q.2 with
     | .obj c a => [Line.debugC 4 c a]
     | _ => [])

/-- Output for one matching record (lines 40-50): a `debug_contents` value
prints a header and its block; a list prints a header and one indexed line
per element; anything else prints a single line. -/
def recLines (k : SKey) (v : PValue) : List Line :=
  match v with
  | .obj c a => [Line.header k.devid k.objid k.propid, Line.debugC 1 c a]
  | .seq vs => Line.header k.devid k.objid k.propid :: (enumFrom 0 vs).flatMap elemLines
  | .atom s => [Line.single k.devid k.objid k.propid (.atom s)]

/-- The device-identifier filter check (line 34): skipped for the literal
`"-"`, otherwise `int(args.devid)` (which raises on a malformed argument)
is compared with the record's device identifier. -/
def devCheck (fdev : String) (k : SKey) : Except PyErr Bool :=
  if fdev = "-" then .ok true
  else
    match parseIntOpt fdev with
    | none => .error (.valueError "invalid literal for int")
    | some n => .ok (n == k.devid)

/-- All three filter checks of the dump loop (lines 34-39). -/
def matchE (fdev fobj fprop : String) (k : SKey) : Except PyErr Bool :=
  match devCheck fdev k with
  | .error e => .error e
  | .ok b => .ok (b && (fobj == "-" || fobj == k.objid) && (fprop == "-" || fprop == k.propid))

/-- The record loop of `dump.py` (lines 33-51) over the shelf contents. -/
def dumpLoop (fdev fobj fprop : String) : Replay.Shelf → Except PyErr (List Line)
  | [] => .ok []
  | (k, v) :: rest =>
    match matchE fdev fobj fprop k with
    | .error e => .error e
    | .ok false => dumpLoop fdev fobj fprop rest
    | .ok true =>
      match dumpLoop fdev fobj fprop rest with
      | .error e => .error e
      | .ok out => .ok (recLines k v ++ out)

/-- The filter predicate as the specification states it: a `"-"` argument
imposes no constraint, any other argument requires equality on the
corresponding field (numeric equality for the device identifier). -/
def dumpMatch (fdev fobj fprop : String) (k : SKey) : Bool :=
  (fdev == "-" || parseIntOpt fdev == some k.devid) &&
  (fobj == "-" || fobj == k.objid) &&
  (fprop == "-" || fprop == k.propid)

end Dump

/-- The device-identifier filter test of `replay.py` `Snapshot.items`, as
a predicate (used to state which records reach the object-identifier
check). -/
def devPass (devid : Option Int) (k : SKey) : Bool :=
  match devid with
  | none => true
  | some d => k.devid == d

/-! ### Round-trip of the serialization model -/

theorem decodeN_dumpsL (fuel : Nat) :
    ∀ (vs : List PValue) (rest : List PTok),
      (pickleDumpsL vs).length < fuel →
      decodeN fuel vs.length (pickleDumpsL vs ++ rest) = some (vs, rest) := by
  induction fuel with
  | zero => intro vs rest h; omega
  | succ f ih =>
    intro vs rest h
    match vs with
    | [] => simp [pickleDumpsL, decodeN]
    | v :: tl =>
      match v with
      | .atom s =>
        simp only [pickleDumpsL, pickleDumps, List.length_cons, List.cons_append,
          List.append_assoc, List.nil_append, decodeN]
        rw [ih tl rest (by simp [pickleDumpsL, pickleDumps] at h ⊢; omega)]
      | .obj c a =>
        simp only [pickleDumpsL, pickleDumps, List.length_cons, List.cons_append,
          List.append_assoc, List.nil_append, decodeN]
        rw [ih tl rest (by simp [pickleDumpsL, pickleDumps] at h ⊢; omega)]
      | .seq ws =>
        have hlen : (pickleDumpsL (PValue.seq ws :: tl)).length
            = 1 + (pickleDumpsL ws).length + (pickleDumpsL tl).length := by
          simp [pickleDumpsL, pickleDumps]; omega
        simp only [pickleDumpsL, pickleDumps, List.length_cons, List.cons_append,
          List.append_assoc, List.nil_append, decodeN]
        simp only [ih ws (pickleDumpsL tl ++ rest) (by rw [hlen] at h; omega),
          ih tl rest (by rw [hlen] at h; omega)]

theorem pickle_roundtrip (v : PValue) : pickleLoads (pickleDumps v) = some v := by
  have hsing : pickleDumpsL [v] = pickleDumps v := by simp [pickleDumpsL]
  have h1 : decodeN ((pickleDumps v).length + 1) ([v]).length (pickleDumpsL [v] ++ [])
      = some ([v], []) := by
    apply decodeN_dumpsL
    rw [hsing]; omega
  rw [hsing, List.append_nil] at h1
  simp only [List.length_cons, List.length_nil] at h1
  simp [pickleLoads, h1]

theorem pickleLoadsE_dumps (v : PValue) : pickleLoadsE (pickleDumps v) = .ok v := by
  simp [pickleLoadsE, pickle_roundtrip]

/-! ### The Python string-helper models -/

theorem data_append (s t : String) : (s ++ t).data = s.data ++ t.data := rfl

theorem splitCore_no_sep (sep : Char) :
    ∀ (l cur : List Char), (∀ c ∈ l, c ≠ sep) →
      splitCore sep l cur = [String.mk (cur.reverse ++ l)] := by
  intro l
  induction l with
  | nil => intro cur _; simp [splitCore]
  | cons c cs ih =>
    intro cur h
    have hc : c ≠ sep := h c (by simp)
    simp only [splitCore, if_neg hc]
    rw [ih (c :: cur) (fun x hx => h x (by simp [hx]))]
    simp

theorem splitCore_sep_split (sep : Char) :
    ∀ (l₁ l₂ cur : List Char), (∀ c ∈ l₁, c ≠ sep) →
      splitCore sep (l₁ ++ sep :: l₂) cur
        = String.mk (cur.reverse ++ l₁) :: splitCore sep l₂ [] := by
  intro l₁
  induction l₁ with
  | nil => intro l₂ cur _; simp [splitCore]
  | cons c cs ih =>
    intro l₂ cur h
    have hc : c ≠ sep := h c (by simp)
    have step : splitCore sep ((c :: cs) ++ sep :: l₂) cur
        = splitCore sep (cs ++ sep :: l₂) (c :: cur) := by
      simp only [List.cons_append, splitCore, if_neg hc]
      rfl
    rw [step, ih l₂ (c :: cur) (fun x hx => h x (by simp [hx]))]
    simp

theorem splitCore_ne_nil (sep : Char) :
    ∀ (l cur : List Char), splitCore sep l cur ≠ [] := by
  intro l
  induction l with
  | nil => intro cur; simp [splitCore]
  | cons c cs ih =>
    intro cur
    by_cases hc : c = sep
    · subst hc; simp [splitCore]
    · simp only [splitCore, if_neg hc]; exact ih (c :: cur)

theorem splitCore_eq_one (sep : Char) :
    ∀ (l cur : List Char) (a : String), splitCore sep l cur = [a] →
      (∀ c ∈ l, c ≠ sep) ∧ a = String.mk (cur.reverse ++ l) := by
  intro l
  induction l with
  | nil =>
    intro cur a h
    simp [splitCore] at h
    simp [h]
  | cons c cs ih =>
    intro cur a h
    by_cases hc : c = sep
    · simp only [splitCore, if_pos hc] at h
      have h2 : splitCore sep cs [] = [] := (List.cons_eq_cons.mp h).2
      exact absurd h2 (splitCore_ne_nil sep cs [])
    · simp only [splitCore, if_neg hc] at h
      obtain ⟨h1, h2⟩ := ih (c :: cur) a h
      constructor
      · intro x hx
        rcases List.mem_cons.mp hx with rfl | hx'
        · exact hc
        · exact h1 x hx'
      · rw [h2]; simp

theorem splitCore_eq_two (sep : Char) :
    ∀ (l cur : List Char) (a b : String), splitCore sep l cur = [a, b] →
      ∃ l₁ l₂, l = l₁ ++ sep :: l₂ ∧ (∀ c ∈ l₁, c ≠ sep) ∧
        a = String.mk (cur.reverse ++ l₁) ∧ b = String.mk l₂ := by
  intro l
  induction l with
  | nil => intro cur a b h; simp [splitCore] at h
  | cons c cs ih =>
    intro cur a b h
    by_cases hc : c = sep
    · simp only [splitCore, if_pos hc] at h
      have h1 : String.mk cur.reverse = a := (List.cons_eq_cons.mp h).1
      have h2 : splitCore sep cs [] = [b] := (List.cons_eq_cons.mp h).2
      obtain ⟨hfree, hb⟩ := splitCore_eq_one sep cs [] b h2
      refine ⟨[], cs, by simp [hc], by simp, ?_, ?_⟩
      · rw [← h1]; simp
      · rw [hb]; simp
    · simp only [splitCore, if_neg hc] at h
      obtain ⟨l₁, l₂, hl, hfree, ha, hb⟩ := ih (c :: cur) a b h
      refine ⟨c :: l₁, l₂, by simp [hl], ?_, ?_, hb⟩
      · intro x hx
        rcases List.mem_cons.mp hx with rfl | hx'
        · exact hc
        · exact hfree x hx'
      · rw [ha]; simp

theorem pysplit_eq_two (s : String) (a b : String) (h : pysplit s ':' = [a, b]) :
    s.data = a.data ++ ':' :: b.data := by
  obtain ⟨l₁, l₂, hl, _, ha, hb⟩ := splitCore_eq_two ':' s.data [] a b h
  rw [hl, ha, hb]
  simp

theorem pysplit_two_ne (s : String) (a b : String) (h : pysplit s ':' = [a, b]) :
    s ≠ a := by
  intro hs
  have hd := pysplit_eq_two s a b h
  rw [hs] at hd
  have := congrArg List.length hd
  simp at this

theorem digitCharP_ne_colon (n : Nat) (h : n < 10) : digitCharP n ≠ ':' := by
  interval_cases n <;> decide

theorem natStrAux_no_colon :
    ∀ (fuel n : Nat), ∀ c ∈ natStrAux fuel n, c ≠ ':' := by
  intro fuel
  induction fuel with
  | zero => intro n c hc; simp [natStrAux] at hc
  | succ f ih =>
    intro n c hc
    by_cases h : n < 10
    · simp only [natStrAux, if_pos h, List.mem_singleton] at hc
      rw [hc]; exact digitCharP_ne_colon n h
    · simp only [natStrAux, if_neg h, List.mem_append, List.mem_singleton] at hc
      rcases hc with hc | hc
      · exact ih (n / 10) c hc
      · rw [hc]; exact digitCharP_ne_colon (n % 10) (Nat.mod_lt n (by omega))

theorem natStrAux_ne_nil (fuel n : Nat) : natStrAux (fuel + 1) n ≠ [] := by
  by_cases h : n < 10
  · simp [natStrAux, if_pos h]
  · simp [natStrAux, if_neg h]

theorem intStr_no_colon (d : Int) : ∀ c ∈ (intStr d).data, c ≠ ':' := by
  cases d with
  | ofNat m =>
    intro c hc
    exact natStrAux_no_colon (m + 1) m c hc
  | negSucc m =>
    intro c hc
    rw [show intStr (Int.negSucc m) = "-" ++ natStr (m + 1) from rfl, data_append] at hc
    rcases List.mem_append.mp hc with hc | hc
    · simp only [show ("-" : String).data = ['-'] from rfl, List.mem_singleton] at hc
      rw [hc]; decide
    · exact natStrAux_no_colon (m + 1 + 1) (m + 1) c hc

theorem intStr_data_ne_nil (d : Int) : (intStr d).data ≠ [] := by
  cases d with
  | ofNat m => exact natStrAux_ne_nil m m
  | negSucc m =>
    rw [show intStr (Int.negSucc m) = "-" ++ natStr (m + 1) from rfl, data_append]
    simp [show ("-" : String).data = ['-'] from rfl]

theorem intStr_ne_empty (d : Int) : intStr d ≠ "" := by
  intro h
  exact intStr_data_ne_nil d (congrArg String.data h)

theorem pysplit_deviceObjId (d : Int) :
    pysplit (Replay.deviceObjId d) ':' = ["device", intStr d] := by
  have hdata : (Replay.deviceObjId d).data
      = ['d', 'e', 'v', 'i', 'c', 'e'] ++ ':' :: (intStr d).data := by
    rw [Replay.deviceObjId, data_append]
    rfl
  rw [pysplit, hdata, splitCore_sep_split ':' _ _ _ (by decide)]
  rw [splitCore_no_sep ':' _ _ (intStr_no_colon d)]
  simp

theorem pysplit_deviceObjId_colon (d : Int) :
    pysplit (Replay.deviceObjId d ++ ":") ':' = ["device", intStr d, ""] := by
  have hdata : (Replay.deviceObjId d ++ ":").data
      = ['d', 'e', 'v', 'i', 'c', 'e'] ++ ':' :: ((intStr d).data ++ ':' :: []) := by
    rw [data_append, Replay.deviceObjId, data_append]
    rfl
  rw [pysplit, hdata, splitCore_sep_split ':' _ _ _ (by decide)]
  rw [splitCore_sep_split ':' _ _ _ (intStr_no_colon d)]
  simp [splitCore]

theorem pysplit_append_colon (s : String) (hs : ∀ c ∈ s.data, c ≠ ':') :
    pysplit (s ++ ":") ':' = [s, ""] := by
  have hdata : (s ++ ":").data = s.data ++ ':' :: [] := by
    rw [data_append]
  rw [pysplit, hdata, splitCore_sep_split ':' _ _ _ hs]
  simp [splitCore]

/-! ### Behaviour of the object-identifier filter in `replay.py` items -/

namespace Replay

theorem itemStepObj_some (oid objinst : String) (propid : Option String) (k : SKey) :
    itemStepObj (some oid) objinst propid k =
      if objinst ≠ "" ∧ k.objid ≠ oid then .skipR
      else if (pysplit k.objid ':').length = 2 then .skipR
      else .err (.valueError "unpack") := by
  by_cases h1 : objinst ≠ "" ∧ k.objid ≠ oid
  · simp only [itemStepObj, if_pos h1]
  · simp only [itemStepObj, if_neg h1]
    rcases hsp : pysplit k.objid ':' with _ | ⟨a, _ | ⟨b, _ | ⟨c, l⟩⟩⟩
    · simp [hsp]
    · simp [hsp]
    · have hne : k.objid ≠ a := pysplit_two_ne k.objid a b hsp
      simp [hsp, hne]
    · simp [hsp]

theorem itemStepObj_some_ne_yield (oid objinst : String) (propid : Option String)
    (k : SKey) : itemStepObj (some oid) objinst propid k ≠ .yield := by
  rw [itemStepObj_some]
  split
  · simp
  · split <;> simp

theorem itemStep_devobj_skip (d : Int) (propid : Option String) (k : SKey) :
    itemStep (some d) (some (deviceObjId d)) propid (intStr d) k = .skipR := by
  rw [itemStep]
  by_cases hdev : k.devid ≠ d
  · simp [if_pos hdev]
  · rw [if_neg hdev, itemStepObj_some]
    by_cases hobj : k.objid ≠ deviceObjId d
    · rw [if_pos ⟨intStr_ne_empty d, hobj⟩]
    · rw [if_neg (by simp [hobj]), if_pos ?hl]
      case hl =>
        have hobj' : k.objid = deviceObjId d := by
          by_contra hc; exact hobj hc
        rw [hobj', pysplit_deviceObjId]
        rfl

theorem itemsLoop_skip_all (devid : Option Int) (objid propid : Option String)
    (objinst : String) :
    ∀ sh : Shelf, (∀ e ∈ sh, itemStep devid objid propid objinst e.1 = .skipR) →
      itemsLoop devid objid propid objinst sh = ([], none) := by
  intro sh
  induction sh with
  | nil => intro _; rfl
  | cons e rest ih =>
    intro h
    obtain ⟨k, v⟩ := e
    have hk : itemStep devid objid propid objinst k = .skipR := h (k, v) (by simp)
    simp only [itemsLoop, hk]
    exact ih (fun e he => h e (by simp [he]))

theorem items_devobj (sh : Shelf) (d : Int) :
    items sh (some d) (some (deviceObjId d)) none = ([], none) := by
  have hinst : ((pysplit (deviceObjId d ++ ":") ':').take 2).getD 1 "" = intStr d := by
    rw [pysplit_deviceObjId_colon]
    rfl
  show itemsLoop (some d) (some (deviceObjId d)) none
      (((pysplit (deviceObjId d ++ ":") ':').take 2).getD 1 "") sh = ([], none)
  rw [hinst]
  exact itemsLoop_skip_all _ _ _ _ sh
    (fun e _ => itemStep_devobj_skip d none e.1)

theorem items_devid_only (sh : Shelf) (d : Int) :
    items sh (some d) none none =
      ((sh.filter (fun e => e.1.devid == d)).map
        (fun e => ⟨e.1.devid, e.1.objid, e.1.propid, e.2⟩), none) := by
  show itemsLoop (some d) none none "" sh = _
  induction sh with
  | nil => rfl
  | cons e rest ih =>
    obtain ⟨k, v⟩ := e
    by_cases hdev : k.devid = d
    · have hstep : itemStep (some d) none none "" k = .yield := by
        simp [itemStep, hdev, itemStepObj, itemStepProp]
      simp only [itemsLoop, hstep, ih, List.filter_cons, List.map_cons]
      simp [hdev]
    · have hstep : itemStep (some d) none none "" k = .skipR := by
        simp [itemStep, hdev]
      simp only [itemsLoop, hstep, ih, List.filter_cons]
      simp [hdev]

theorem itemStep_some_cases (devf : Option Int) (s : String) (propf : Option String)
    (k : SKey) :
    itemStep devf (some s) propf "" k = .skipR ∨
      itemStep devf (some s) propf "" k = .err (.valueError "unpack") := by
  have hobj := itemStepObj_some s "" propf k
  rw [if_neg (by simp)] at hobj
  cases devf with
  | none =>
    rw [itemStep, hobj]
    split
    · exact .inl rfl
    · exact .inr rfl
  | some dd =>
    rw [itemStep]
    by_cases hdev : k.devid ≠ dd
    · rw [if_pos hdev]; exact .inl rfl
    · rw [if_neg hdev, hobj]
      split
      · exact .inl rfl
      · exact .inr rfl

theorem itemStep_some_err (devf : Option Int) (s : String) (propf : Option String)
    (k : SKey) (hdev : devPass devf k = true)
    (hbad : (pysplit k.objid ':').length ≠ 2) :
    itemStep devf (some s) propf "" k = .err (.valueError "unpack") := by
  have hobj := itemStepObj_some s "" propf k
  rw [if_neg (by simp), if_neg hbad] at hobj
  cases devf with
  | none => rw [itemStep, hobj]
  | some dd =>
    have hk : k.devid = dd := by
      simpa [devPass] using hdev
    rw [itemStep, if_neg (by simp [hk]), hobj]

theorem itemsLoop_some_err (devf : Option Int) (s : String) (propf : Option String) :
    ∀ sh : Shelf,
      (∃ e ∈ sh, devPass devf e.1 = true ∧ (pysplit e.1.objid ':').length ≠ 2) →
      (itemsLoop devf (some s) propf "" sh).2 = some (.valueError "unpack") := by
  intro sh
  induction sh with
  | nil => rintro ⟨e, he, _⟩; simp at he
  | cons e0 rest ih =>
    rintro ⟨e, he, hdev, hbad⟩
    obtain ⟨k, v⟩ := e0
    rcases List.mem_cons.mp he with rfl | htail
    · have hstep := itemStep_some_err devf s propf k hdev hbad
      simp [itemsLoop, hstep]
    · rcases itemStep_some_cases devf s propf k with hstep | hstep
      · simp only [itemsLoop, hstep]
        exact ih ⟨e, htail, hdev, hbad⟩
      · simp [itemsLoop, hstep]

end Replay

/-! ### Association-list and grouping lemmas -/

theorem alookup_cons {κ β : Type} [BEq κ] (k' : κ) (b : β) (l : List (κ × β)) (k : κ) :
    alookup ((k', b) :: l) k = if (k' == k) = true then some b else alookup l k := by
  by_cases h : (k' == k) = true
  · rw [if_pos h, alookup, List.find?_cons_of_pos _ (by simpa using h)]
    rfl
  · rw [if_neg h, alookup,
      List.find?_cons_of_neg _ (by simpa using Bool.of_not_eq_true h), alookup]

theorem alookup_assocSet_self (l : List (String × PValue)) (p : String) (v : PValue) :
    alookup (assocSet l p v) p = some v := by
  induction l with
  | nil => simp [assocSet, alookup_cons]
  | cons e rest ih =>
    obtain ⟨p', v'⟩ := e
    by_cases h : p' = p
    · simp [assocSet, if_pos h, alookup_cons]
    · rw [show assocSet ((p', v') :: rest) p v = (p', v') :: assocSet rest p v by
        simp [assocSet, if_neg h]]
      rw [alookup_cons, if_neg (by simp [h]), ih]

theorem alookup_assocSet_ne (l : List (String × PValue)) (p q : String) (v : PValue)
    (h : q ≠ p) : alookup (assocSet l p v) q = alookup l q := by
  induction l with
  | nil =>
    simp [assocSet, alookup_cons, Ne.symm h, alookup]
  | cons e rest ih =>
    obtain ⟨p', v'⟩ := e
    by_cases hp : p' = p
    · subst hp
      rw [show assocSet ((p', v') :: rest) p' v = (p', v) :: rest by
        simp [assocSet]]
      rw [alookup_cons, alookup_cons, if_neg (by simp [Ne.symm h]),
        if_neg (by simp [Ne.symm h])]
    · rw [show assocSet ((p', v') :: rest) p v = (p', v') :: assocSet rest p v by
        simp [assocSet, if_neg hp]]
      rw [alookup_cons, alookup_cons, ih]

namespace Replay

theorem alookup_insertGroup_self (m : GroupMap) (o p : String) (v : PValue) :
    alookup (insertGroup m o p v) o = some (assocSet ((alookup m o).getD []) p v) := by
  induction m with
  | nil => simp [insertGroup, alookup_cons, alookup, assocSet]
  | cons e rest ih =>
    obtain ⟨o', props⟩ := e
    by_cases h : o' = o
    · subst h
      rw [show insertGroup ((o', props) :: rest) o' p v
          = (o', assocSet props p v) :: rest by simp [insertGroup]]
      rw [alookup_cons, if_pos (by simp), alookup_cons, if_pos (by simp)]
      rfl
    · rw [show insertGroup ((o', props) :: rest) o p v
          = (o', props) :: insertGroup rest o p v by simp [insertGroup, if_neg h]]
      rw [alookup_cons, if_neg (by simp [h]), ih, alookup_cons, if_neg (by simp [h])]

theorem alookup_insertGroup_ne (m : GroupMap) (o o' p : String) (v : PValue)
    (h : o' ≠ o) : alookup (insertGroup m o p v) o' = alookup m o' := by
  induction m with
  | nil => simp [insertGroup, alookup_cons, Ne.symm h, alookup]
  | cons e rest ih =>
    obtain ⟨o₀, props⟩ := e
    by_cases h0 : o₀ = o
    · subst h0
      rw [show insertGroup ((o₀, props) :: rest) o₀ p v
          = (o₀, assocSet props p v) :: rest by simp [insertGroup]]
      rw [alookup_cons, alookup_cons, if_neg (by simp [Ne.symm h]),
        if_neg (by simp [Ne.symm h])]
    · rw [show insertGroup ((o₀, props) :: rest) o p v
          = (o₀, props) :: insertGroup rest o p v by simp [insertGroup, if_neg h0]]
      rw [alookup_cons, alookup_cons, ih]

theorem groupLookup_insert_self (m : GroupMap) (o p : String) (v : PValue) :
    groupLookup (insertGroup m o p v) o p = some v := by
  rw [groupLookup, alookup_insertGroup_self]
  exact alookup_assocSet_self _ p v

theorem groupLookup_insert_other (m : GroupMap) (o o' p p' : String) (v : PValue)
    (h : o' ≠ o ∨ p' ≠ p) :
    groupLookup (insertGroup m o p v) o' p' = groupLookup m o' p' := by
  rcases h with h | h
  · rw [groupLookup, alookup_insertGroup_ne m o o' p v h, groupLookup]
  · by_cases ho : o' = o
    · subst ho
      rw [groupLookup, alookup_insertGroup_self, groupLookup]
      rcases hm : alookup m o' with _ | props
      · simp only [hm, Option.getD_none]
        rw [alookup_assocSet_ne _ p p' v h]
        simp [alookup]
      · simp only [hm, Option.getD_some]
        rw [alookup_assocSet_ne _ p p' v h]
    · rw [groupLookup, alookup_insertGroup_ne m o o' p v ho, groupLookup]

theorem mem_keys_insertGroup (m : GroupMap) (o o' p : String) (v : PValue) :
    o' ∈ (insertGroup m o p v).map Prod.fst ↔ o' ∈ m.map Prod.fst ∨ o' = o := by
  induction m with
  | nil => simp [insertGroup]
  | cons e rest ih =>
    obtain ⟨o₀, props⟩ := e
    by_cases h0 : o₀ = o
    · subst h0
      rw [show insertGroup ((o₀, props) :: rest) o₀ p v
          = (o₀, assocSet props p v) :: rest by simp [insertGroup]]
      simp only [List.map_cons, List.mem_cons]
      tauto
    · rw [show insertGroup ((o₀, props) :: rest) o p v
          = (o₀, props) :: insertGroup rest o p v by simp [insertGroup, if_neg h0]]
      simp only [List.map_cons, List.mem_cons, ih]
      tauto

theorem keys_insertGroup (m : GroupMap) (o p : String) (v : PValue) :
    (insertGroup m o p v).map Prod.fst =
      if o ∈ m.map Prod.fst then m.map Prod.fst else m.map Prod.fst ++ [o] := by
  induction m with
  | nil => simp [insertGroup]
  | cons e rest ih =>
    obtain ⟨o₀, props⟩ := e
    by_cases h0 : o₀ = o
    · subst h0
      rw [show insertGroup ((o₀, props) :: rest) o₀ p v
          = (o₀, assocSet props p v) :: rest by simp [insertGroup]]
      simp
    · rw [show insertGroup ((o₀, props) :: rest) o p v
          = (o₀, props) :: insertGroup rest o p v by simp [insertGroup, if_neg h0]]
      simp only [List.map_cons, ih]
      by_cases hmem : o ∈ rest.map Prod.fst
      · rw [if_pos hmem, if_pos (by simp [hmem])]
      · rw [if_neg hmem, if_neg ?hno, List.cons_append]
        case hno =>
          simp only [List.map_cons, List.mem_cons]
          push_neg
          exact ⟨Ne.symm h0, hmem⟩

end Replay

theorem getLast?_cons_some {α : Type} (a x : α) (l : List α)
    (h : l.getLast? = some x) : (a :: l).getLast? = some x := by
  cases l with
  | nil => simp at h
  | cons b t => rw [List.getLast?_cons_cons, h]

namespace Replay

theorem buildFold_lookup (dobj o p : String) (ho : ¬(o = "-" ∨ o = dobj)) :
    ∀ (recs : List ItemRec) (m : GroupMap),
      groupLookup (recs.foldl (groupStep dobj) m) o p =
        (((recs.filter (fun r => r.objid == o && r.propid == p)).getLast?).map
          (fun r => some r.value)).getD (groupLookup m o p) := by
  intro recs
  induction recs with
  | nil => intro m; simp
  | cons r rs ih =>
    intro m
    rw [List.foldl_cons]
    by_cases hmatch : (r.objid == o && r.propid == p) = true
    · have hobj : r.objid = o := by
        have := (Bool.and_eq_true _ _).mp hmatch
        exact beq_iff_eq.mp this.1
      have hprop : r.propid = p := by
        have := (Bool.and_eq_true _ _).mp hmatch
        exact beq_iff_eq.mp this.2
      have hstep : groupStep dobj m r = insertGroup m r.objid r.propid r.value := by
        rw [groupStep, if_neg]
        simp only [Bool.or_eq_true, beq_iff_eq, hobj]
        exact ho
      rw [hstep, ih]
      rw [show List.filter (fun r => r.objid == o && r.propid == p) (r :: rs)
          = r :: List.filter (fun r => r.objid == o && r.propid == p) rs from by
        simp [List.filter_cons, hmatch]]
      rcases hlast : (rs.filter (fun r => r.objid == o && r.propid == p)).getLast? with
        _ | r'
      · have hnil : rs.filter (fun r => r.objid == o && r.propid == p) = [] :=
          List.getLast?_eq_none_iff.mp hlast
        rw [hnil]
        simp only [List.getLast?_singleton, Option.map_some', Option.getD_some]
        rw [hobj, hprop]
        exact groupLookup_insert_self m o p r.value
      · rw [getLast?_cons_some r r' _ hlast, hlast]
        simp
    · rcases hskip : (r.objid == "-" || r.objid == dobj) with _ | _
      · have hstep : groupStep dobj m r = insertGroup m r.objid r.propid r.value := by
          rw [groupStep, hskip]
          simp
        have hne : r.objid ≠ o ∨ r.propid ≠ p := by
          by_contra hc
          push_neg at hc
          exact hmatch (by simp [hc.1, hc.2])
        rw [hstep, ih]
        rw [show List.filter (fun r => r.objid == o && r.propid == p) (r :: rs)
            = List.filter (fun r => r.objid == o && r.propid == p) rs from by
          simp [List.filter_cons, hmatch]]
        rw [groupLookup_insert_other m r.objid o r.propid p r.value
          (by tauto)]
      · have hstep : groupStep dobj m r = m := by
          rw [groupStep, hskip]
          simp
        rw [hstep, ih]
        rw [show List.filter (fun r => r.objid == o && r.propid == p) (r :: rs)
            = List.filter (fun r => r.objid == o && r.propid == p) rs from by
          simp [List.filter_cons, hmatch]]

theorem buildObjPropMap_lookup (dobj o p : String) (ho : ¬(o = "-" ∨ o = dobj))
    (recs : List ItemRec) :
    groupLookup (buildObjPropMap dobj recs) o p =
      ((recs.filter (fun r => r.objid == o && r.propid == p)).getLast?).map
        (fun r => r.value) := by
  rw [buildObjPropMap, buildFold_lookup dobj o p ho recs []]
  rcases hlast : (recs.filter (fun r => r.objid == o && r.propid == p)).getLast? with
    _ | r'
  · rw [hlast]
    simp [groupLookup, alookup]
  · rw [hlast]
    simp

theorem buildFold_mem_keys (dobj o : String) :
    ∀ (recs : List ItemRec) (m : GroupMap),
      o ∈ (recs.foldl (groupStep dobj) m).map Prod.fst ↔
        o ∈ m.map Prod.fst ∨
          ∃ r ∈ recs, r.objid = o ∧ ¬(o = "-" ∨ o = dobj) := by
  intro recs
  induction recs with
  | nil => intro m; simp
  | cons r rs ih =>
    intro m
    rw [List.foldl_cons]
    rcases hskip : (r.objid == "-" || r.objid == dobj) with _ | _
    · have hstep : groupStep dobj m r = insertGroup m r.objid r.propid r.value := by
        rw [groupStep, hskip]; simp
      rw [hstep, ih, mem_keys_insertGroup]
      constructor
      · rintro ((hm | rfl) | ⟨r', hr', ho', hno⟩)
        · exact .inl hm
        · refine .inr ⟨r, by simp, rfl, ?_⟩
          · simp only [Bool.or_eq_false_iff, beq_eq_false_iff_ne] at hskip
            tauto
        · exact .inr ⟨r', by simp [hr'], ho', hno⟩
      · rintro (hm | ⟨r', hr', ho', hno⟩)
        · exact .inl (.inl hm)
        · rcases List.mem_cons.mp hr' with rfl | htail
          · exact .inl (.inr ho'.symm)
          · exact .inr ⟨r', htail, ho', hno⟩
    · have hstep : groupStep dobj m r = m := by
        rw [groupStep, hskip]; simp
      rw [hstep, ih]
      constructor
      · rintro (hm | ⟨r', hr', ho', hno⟩)
        · exact .inl hm
        · exact .inr ⟨r', by simp [hr'], ho', hno⟩
      · rintro (hm | ⟨r', hr', ho', hno⟩)
        · exact .inl hm
        · rcases List.mem_cons.mp hr' with rfl | htail
          · exfalso
            simp only [Bool.or_eq_true, beq_iff_eq] at hskip
            rw [ho'] at hskip
            exact hno hskip
          · exact .inr ⟨r', htail, ho', hno⟩

theorem buildFold_keys_nodup (dobj : String) :
    ∀ (recs : List ItemRec) (m : GroupMap),
      ((m.map Prod.fst).Nodup) → ((recs.foldl (groupStep dobj) m).map Prod.fst).Nodup := by
  intro recs
  induction recs with
  | nil => intro m h; simpa using h
  | cons r rs ih =>
    intro m h
    rw [List.foldl_cons]
    apply ih
    rw [groupStep]
    split
    · exact h
    · rw [keys_insertGroup]
      split
      · exact h
      · rename_i hmem
        simp only [List.nodup_append, List.nodup_singleton]
        exact ⟨h, by trivial, by simpa using hmem⟩

theorem buildObjPropMap_keys_nodup (dobj : String) (recs : List ItemRec) :
    ((buildObjPropMap dobj recs).map Prod.fst).Nodup :=
  buildFold_keys_nodup dobj recs [] (by simp)

theorem buildObjPropMap_mem_keys (dobj o : String) (recs : List ItemRec) :
    o ∈ (buildObjPropMap dobj recs).map Prod.fst ↔
      ∃ r ∈ recs, r.objid = o ∧ ¬(o = "-" ∨ o = dobj) := by
  rw [buildObjPropMap, buildFold_mem_keys]
  simp

end Replay

/-! ### Store write/read lemmas -/

theorem find?_append_none {α : Type} (p : α → Bool) :
    ∀ (l₁ l₂ : List α), l₁.find? p = none →
      (l₁ ++ l₂).find? p = l₂.find? p := by
  intro l₁
  induction l₁ with
  | nil => intro l₂ _; simp
  | cons a t ih =>
    intro l₂ h
    rcases ha : p a with _ | _
    · rw [List.cons_append, List.find?_cons_of_neg _ (by simp [ha])]
      apply ih
      rwa [List.find?_cons_of_neg _ (by simp [ha])] at h
    · rw [List.find?_cons_of_pos _ ha] at h
      exact absurd h (by simp)

namespace Db

theorem find?_update (k : SKey) (b : List PTok) :
    ∀ db : Snapshot, db.any (fun r => r.key == k) = true →
      (db.map (fun r => if r.key == k then { r with value := b } else r)).find?
        (fun r => r.key == k) = some ⟨k, b⟩ := by
  intro db
  induction db with
  | nil => intro h; simp at h
  | cons r t ih =>
    intro h
    rcases hr : (r.key == k) with _ | _
    · have ht : t.any (fun r => r.key == k) = true := by
        simpa [List.any_cons, hr] using h
      simp only [List.map_cons, hr]
      rw [if_neg (by simp [hr])]
      rw [List.find?_cons_of_neg _ (by simp [hr])]
      exact ih ht
    · have hk : r.key = k := beq_iff_eq.mp hr
      simp only [List.map_cons]
      rw [if_pos (by simp [hk])]
      rw [List.find?_cons_of_pos _ (by simp [hk])]
      rw [show ({ r with value := b } : Row) = ⟨k, b⟩ by rw [← hk]]

theorem getitem_setitem (db : Snapshot) (k : SKey) (v : PValue) :
    getitem (setitem db k v) k = .ok (some v) := by
  by_cases hany : db.any (fun r => r.key == k) = true
  · rw [setitem, if_pos hany, getitem, find?_update k (pickleDumps v) db hany]
    simp [pickleLoadsE_dumps]
  · rw [setitem, if_neg hany, getitem]
    rw [find?_append_none _ db _ ?hnone]
    case hnone =>
      rw [List.find?_eq_none]
      intro r hr
      simp only [Bool.not_eq_true]
      by_contra hc
      exact hany (List.any_eq_true.mpr ⟨r, hr, by simpa using hc⟩)
    rw [List.find?_cons_of_pos _ (by simp)]
    simp [pickleLoadsE_dumps]

theorem filter_update_nil (k : SKey) (b : List PTok) :
    ∀ db : Snapshot, (∀ r ∈ db, r.key ≠ k) →
      (db.map (fun r => if r.key == k then { r with value := b } else r)).filter
        (fun r => r.key == k) = [] := by
  intro db
  induction db with
  | nil => intro _; simp
  | cons r t ih =>
    intro h
    have hr : r.key ≠ k := h r (by simp)
    simp only [List.map_cons]
    rw [if_neg (by simp [hr])]
    rw [List.filter_cons_of_neg (by simp [hr])]
    exact ih (fun r' hr' => h r' (by simp [hr']))

theorem filter_update (k : SKey) (b : List PTok) :
    ∀ db : Snapshot, (db.map Row.key).Nodup → db.any (fun r => r.key == k) = true →
      (db.map (fun r => if r.key == k then { r with value := b } else r)).filter
        (fun r => r.key == k) = [⟨k, b⟩] := by
  intro db
  induction db with
  | nil => intro _ h; simp at h
  | cons r t ih =>
    intro hnd h
    rcases hr : (r.key == k) with _ | _
    · have ht : t.any (fun r => r.key == k) = true := by
        simpa [List.any_cons, hr] using h
      simp only [List.map_cons]
      rw [if_neg (by simp [hr])]
      rw [List.filter_cons_of_neg (by simp [hr])]
      exact ih (by simpa using hnd.of_cons) ht
    · have hk : r.key = k := beq_iff_eq.mp hr
      have hfresh : ∀ r' ∈ t, r'.key ≠ k := by
        intro r' hr' hc
        have : r.key ∈ t.map Row.key := by
          rw [hk, ← hc]
          exact List.mem_map_of_mem Row.key hr'
        simp only [List.map_cons, List.nodup_cons] at hnd
        exact hnd.1 this
      simp only [List.map_cons]
      rw [if_pos (by simp [hk])]
      rw [List.filter_cons_of_pos (by simp [hk])]
      rw [show ({ r with value := b } : Row) = ⟨k, b⟩ by rw [← hk]]
      rw [filter_update_nil k b t hfresh]

theorem setitem_keys (db : Snapshot) (k : SKey) (v : PValue) :
    (setitem db k v).map Row.key =
      if db.any (fun r => r.key == k) then db.map Row.key
      else db.map Row.key ++ [k] := by
  by_cases hany : db.any (fun r => r.key == k) = true
  · rw [setitem, if_pos hany, if_pos hany, List.map_map]
    apply List.map_congr_left
    intro r _
    simp only [Function.comp_apply]
    split <;> rfl
  · rw [setitem, if_neg hany, if_neg hany]
    simp

theorem setitem_filter (db : Snapshot) (k : SKey) (v : PValue)
    (hnd : (db.map Row.key).Nodup) :
    (setitem db k v).filter (fun r => r.key == k) = [⟨k, pickleDumps v⟩] := by
  by_cases hany : db.any (fun r => r.key == k) = true
  · rw [setitem, if_pos hany]
    exact filter_update k (pickleDumps v) db hnd hany
  · rw [setitem, if_neg hany, List.filter_append]
    rw [List.filter_eq_nil_iff.mpr ?hnil]
    case hnil =>
      intro r hr hc
      exact hany (List.any_eq_true.mpr ⟨r, hr, by simpa using hc⟩)
    rw [List.filter_cons_of_pos (by simp)]
    rfl

theorem setitem_nodup (db : Snapshot) (k : SKey) (v : PValue)
    (hnd : (db.map Row.key).Nodup) :
    ((setitem db k v).map Row.key).Nodup := by
  rw [setitem_keys]
  by_cases hany : db.any (fun r => r.key == k) = true
  · rwa [if_pos hany]
  · rw [if_neg hany]
    simp only [List.nodup_append, List.nodup_singleton]
    refine ⟨hnd, by trivial, ?_⟩
    intro x hx
    simp only [List.mem_singleton]
    intro hc
    rw [hc] at hx
    obtain ⟨r, hr, hrk⟩ := List.mem_map.mp hx
    exact hany (List.any_eq_true.mpr ⟨r, hr, by simp [hrk]⟩)

theorem getitem_absent (db : Snapshot) (k : SKey) (h : ∀ r ∈ db, r.key ≠ k) :
    getitem db k = .ok none := by
  rw [getitem, List.find?_eq_none.mpr ?hn]
  case hn =>
    intro r hr
    simp [h r hr]

end Db

namespace Replay

theorem shelf_filter_update_nil (k : SKey) (v : PValue) :
    ∀ sh : Shelf, (∀ e ∈ sh, e.1 ≠ k) →
      (sh.map (fun e => if e.1 == k then (e.1, v) else e)).filter
        (fun e => e.1 == k) = [] := by
  intro sh
  induction sh with
  | nil => intro _; simp
  | cons e t ih =>
    intro h
    have he : e.1 ≠ k := h e (by simp)
    simp only [List.map_cons]
    rw [if_neg (by simp [he])]
    rw [List.filter_cons_of_neg (by simp [he])]
    exact ih (fun e' he' => h e' (by simp [he']))

theorem shelf_filter_update (k : SKey) (v : PValue) :
    ∀ sh : Shelf, (sh.map Prod.fst).Nodup → sh.any (fun e => e.1 == k) = true →
      (sh.map (fun e => if e.1 == k then (e.1, v) else e)).filter
        (fun e => e.1 == k) = [(k, v)] := by
  intro sh
  induction sh with
  | nil => intro _ h; simp at h
  | cons e t ih =>
    intro hnd h
    rcases he : (e.1 == k) with _ | _
    · have ht : t.any (fun e => e.1 == k) = true := by
        simpa [List.any_cons, he] using h
      simp only [List.map_cons]
      rw [if_neg (by simp [he])]
      rw [List.filter_cons_of_neg (by simp [he])]
      exact ih (by simpa using hnd.of_cons) ht
    · have hk : e.1 = k := beq_iff_eq.mp he
      have hfresh : ∀ e' ∈ t, e'.1 ≠ k := by
        intro e' he' hc
        have : e.1 ∈ t.map Prod.fst := by
          rw [hk, ← hc]
          exact List.mem_map_of_mem Prod.fst he'
        simp only [List.map_cons, List.nodup_cons] at hnd
        exact hnd.1 this
      simp only [List.map_cons]
      rw [if_pos (by simp [hk])]
      rw [List.filter_cons_of_pos (by simp [hk])]
      rw [show (e.1, v) = (k, v) by rw [hk]]
      rw [shelf_filter_update_nil k v t hfresh]

theorem shelf_setitem_filter (sh : Shelf) (k : SKey) (v : PValue)
    (hnd : (sh.map Prod.fst).Nodup) :
    (setitem sh k v).filter (fun e => e.1 == k) = [(k, v)] := by
  by_cases hany : sh.any (fun e => e.1 == k) = true
  · rw [setitem, if_pos hany]
    exact shelf_filter_update k v sh hnd hany
  · rw [setitem, if_neg hany, List.filter_append]
    rw [List.filter_eq_nil_iff.mpr ?hnil]
    case hnil =>
      intro e he hc
      exact hany (List.any_eq_true.mpr ⟨e, he, by simpa using hc⟩)
    rw [List.filter_cons_of_pos (by simp)]
    rfl

theorem shelf_setitem_keys (sh : Shelf) (k : SKey) (v : PValue) :
    (setitem sh k v).map Prod.fst =
      if sh.any (fun e => e.1 == k) then sh.map Prod.fst
      else sh.map Prod.fst ++ [k] := by
  by_cases hany : sh.any (fun e => e.1 == k) = true
  · rw [setitem, if_pos hany, if_pos hany, List.map_map]
    apply List.map_congr_left
    intro e _
    simp only [Function.comp_apply]
    split <;> rfl
  · rw [setitem, if_neg hany, if_neg hany]
    simp

theorem shelf_setitem_nodup (sh : Shelf) (k : SKey) (v : PValue)
    (hnd : (sh.map Prod.fst).Nodup) :
    ((setitem sh k v).map Prod.fst).Nodup := by
  rw [shelf_setitem_keys]
  by_cases hany : sh.any (fun e => e.1 == k) = true
  · rwa [if_pos hany]
  · rw [if_neg hany]
    simp only [List.nodup_append, List.nodup_singleton]
    refine ⟨hnd, by trivial, ?_⟩
    intro x hx
    simp only [List.mem_singleton]
    intro hc
    rw [hc] at hx
    obtain ⟨e, he, hek⟩ := List.mem_map.mp hx
    exact hany (List.any_eq_true.mpr ⟨e, he, by simp [hek]⟩)

theorem shelf_getitem_absent (sh : Shelf) (k : SKey) (h : ∀ e ∈ sh, e.1 ≠ k) :
    getitem sh k = .error (.keyError k) := by
  rw [getitem]
  rw [show alookup sh k = none from ?hn]
  case hn =>
    rw [alookup, List.find?_eq_none.mpr ?hm]
    · rfl
    case hm =>
      intro e he
      simp [h e he]

end Replay

/-! ### Device-model construction and topology lemmas -/

namespace Replay

theorem mkObjDescriptor_ok (o : String) (props : List (String × PValue))
    (hne : o ≠ "-") (hwf : wfObjid o = true) :
    ∃ d, mkObjDescriptor (o, props) = .ok d := by
  rw [wfObjid] at hwf
  simp only [Bool.or_eq_true, beq_iff_eq, Bool.and_eq_true] at hwf
  rcases hwf with h | ⟨hlen, hsome⟩
  · exact absurd h hne
  · obtain ⟨a, b, hab⟩ := List.length_eq_two.mp (by simpa using hlen)
    rw [hab] at hsome
    rcases hp : parseIntOpt b with _ | n
    · exfalso
      have hb : ([a, b].getD 1 "") = b := rfl
      rw [hb, hp] at hsome
      simp at hsome
    · refine ⟨⟨a, n, props⟩, ?_⟩
      rw [mkObjDescriptor]
      simp only [hab, hp]

theorem buildObjects_ok (m : GroupMap)
    (h : ∀ entry ∈ m, entry.1 ≠ "-" ∧ wfObjid entry.1 = true) :
    ∃ ds, buildObjects m = .ok ds := by
  induction m with
  | nil => exact ⟨[], rfl⟩
  | cons e rest ih =>
    obtain ⟨o, ps⟩ := e
    obtain ⟨he1, he2⟩ := h (o, ps) (by simp)
    obtain ⟨d, hd⟩ := mkObjDescriptor_ok o ps he1 he2
    obtain ⟨ds, hds⟩ := ih (fun e' he' => h e' (by simp [he']))
    refine ⟨d :: ds, ?_⟩
    rw [buildObjects]
    simp only [hd, hds]

theorem replayAppInit_wf (sh : Shelf) (d : Int) (hwf : wfShelf sh = true) :
    (∃ app, replayAppInit sh d = .ok app) ∨
      (∃ m, replayAppInit sh d = .error (.config m)) := by
  rcases hname : alookup sh ⟨d, deviceObjId d, "objectName"⟩ with _ | nm
  · exact .inr ⟨_, by rw [replayAppInit, hname]⟩
  · rcases hven : alookup sh ⟨d, deviceObjId d, "vendorIdentifier"⟩ with _ | vid
    · exact .inr ⟨_, by rw [replayAppInit, hname, hven]⟩
    · left
      have hkeys : ∀ entry ∈ buildObjPropMap (deviceObjId d)
          ((sh.filter (fun e => e.1.devid == d)).map
            (fun e => ⟨e.1.devid, e.1.objid, e.1.propid, e.2⟩)),
          entry.1 ≠ "-" ∧ wfObjid entry.1 = true := by
        intro entry hentry
        have hmem : entry.1 ∈ (buildObjPropMap (deviceObjId d)
            ((sh.filter (fun e => e.1.devid == d)).map
              (fun e => ⟨e.1.devid, e.1.objid, e.1.propid, e.2⟩))).map Prod.fst :=
          List.mem_map_of_mem Prod.fst hentry
        rw [buildObjPropMap_mem_keys] at hmem
        obtain ⟨r, hr, hro, hno⟩ := hmem
        obtain ⟨e, he, hre⟩ := List.mem_map.mp hr
        constructor
        · intro hc; exact hno (by rw [hc]; exact .inl rfl)
        · have hesh : e ∈ sh := List.mem_of_mem_filter he
          have := List.all_eq_true.mp hwf e hesh
          rw [← hro, ← hre]
          exact this
      obtain ⟨ds, hds⟩ := buildObjects_ok _ hkeys
      refine ⟨⟨⟨nm, ("device", d), vid, []⟩, ds⟩, ?_⟩
      rw [replayAppInit, hname, hven, items_devobj, items_devid_only]
      simp only [hds, List.foldl_nil]

theorem replayAppInit_missing (sh : Shelf) (d : Int)
    (hmiss : alookup sh ⟨d, deviceObjId d, "objectName"⟩ = none ∨
      alookup sh ⟨d, deviceObjId d, "vendorIdentifier"⟩ = none) :
    replayAppInit sh d = .error (.config
      (if (alookup sh ⟨d, deviceObjId d, "objectName"⟩).isNone
       then "device " ++ intStr d ++ ": object name not found"
       else "device " ++ intStr d ++ ": vendor identifier not found")) := by
  rcases hname : alookup sh ⟨d, deviceObjId d, "objectName"⟩ with _ | nm
  · rw [replayAppInit, hname]
    rfl
  · have hven : alookup sh ⟨d, deviceObjId d, "vendorIdentifier"⟩ = none := by
      rcases hmiss with h | h
      · rw [hname] at h; exact absurd h (by simp)
      · exact h
    rw [replayAppInit, hname, hven]
    rfl

theorem mainPeers_config_of_mem (sh : Shelf) (d : Int) (md : String)
    (hwf : wfShelf sh = true)
    (hconf : replayAppInit sh d = .error (.config md)) :
    ∀ (ds : List Int) (i : Nat) (acc : List (Nat × Int)), d ∈ ds →
      ∃ m, mainPeers sh ds i acc = .error (.config m) := by
  intro ds
  induction ds with
  | nil => intro i acc h; simp at h
  | cons d0 tail ih =>
    intro i acc hmem
    rcases replayAppInit_wf sh d0 hwf with ⟨app, happ⟩ | ⟨m0, hm0⟩
    · rcases List.mem_cons.mp hmem with rfl | htail
      · rw [happ] at hconf
        exact absurd hconf (by simp)
      · obtain ⟨m, hm⟩ := ih (i + 1) (acc ++ [(i + 2, d0)]) htail
        exact ⟨m, by rw [mainPeers, happ, hm]⟩
    · exact ⟨m0, by rw [mainPeers, hm0]⟩

theorem mainPeers_ok_shape (sh : Shelf) :
    ∀ (ds : List Int) (i : Nat) (acc out : List (Nat × Int)),
      mainPeers sh ds i acc = .ok out → out = acc ++ enumFrom (i + 2) ds := by
  intro ds
  induction ds with
  | nil =>
    intro i acc out h
    rw [mainPeers] at h
    simp only [Except.ok.injEq] at h
    simp [← h, enumFrom]
  | cons d0 tail ih =>
    intro i acc out h
    rw [mainPeers] at h
    rcases happ : replayAppInit sh d0 with e | app
    · rw [happ] at h; exact absurd h (by simp)
    · rw [happ] at h
      have := ih (i + 1) (acc ++ [(i + 2, d0)]) out h
      rw [this, enumFrom]
      simp

theorem mainModel_exit1 (sh : Shelf) (devids : List Int) (d : Int) (md : String)
    (hwf : wfShelf sh = true) (hd : d ∈ devids)
    (hconf : replayAppInit sh d = .error (.config md)) :
    ∃ m, mainModel devids sh = .exit1 ("configuration err: " ++ m) := by
  cases devids with
  | nil => simp at hd
  | cons d0 rest =>
    rcases replayAppInit_wf sh d0 hwf with ⟨app, happ⟩ | ⟨m0, hm0⟩
    · rcases List.mem_cons.mp hd with rfl | htail
      · rw [happ] at hconf
        exact absurd hconf (by simp)
      · obtain ⟨m, hm⟩ := mainPeers_config_of_mem sh d md hwf hconf rest 0 [] htail
        exact ⟨m, by rw [mainModel, happ, hm]⟩
    · exact ⟨m0, by rw [mainModel, hm0]⟩

theorem mainModel_running_shape (devids : List Int) (sh : Shelf) (topo : Topology)
    (h : mainModel devids sh = .running topo) :
    topo.router = (1, devids.headI) ∧ topo.peers = enumFrom 2 (devids.drop 1) := by
  cases devids with
  | nil => rw [mainModel] at h; exact absurd h (by simp)
  | cons d0 rest =>
    rw [mainModel] at h
    rcases happ : replayAppInit sh d0 with e | app
    · rcases e with m | e <;> rw [happ] at h <;> exact absurd h (by simp)
    · rw [happ] at h
      rcases hpeers : mainPeers sh rest 0 [] with e | peers
      · rcases e with m | e <;> rw [hpeers] at h <;> exact absurd h (by simp)
      · rw [hpeers] at h
        simp only [MainResult.running.injEq] at h
        have hshape := mainPeers_ok_shape sh rest 0 [] peers hpeers
        rw [← h]
        refine ⟨rfl, ?_⟩
        rw [hshape]
        simp

end Replay

/-! ### Dump-utility lemmas -/

namespace Dump

theorem matchE_ok (fdev fobj fprop : String) (k : SKey)
    (h : fdev = "-" ∨ (parseIntOpt fdev).isSome = true) :
    matchE fdev fobj fprop k = .ok (dumpMatch fdev fobj fprop k) := by
  by_cases hd : fdev = "-"
  · rw [matchE, devCheck, if_pos hd, dumpMatch]
    rw [show (fdev == "-") = true by simp [hd]]
    simp
  · have hp : (parseIntOpt fdev).isSome = true := by
      rcases h with h | h
      · exact absurd h hd
      · exact h
    obtain ⟨n, hn⟩ := Option.isSome_iff_exists.mp hp
    rw [matchE, devCheck, if_neg hd, hn, dumpMatch]
    rw [show (fdev == "-") = false by simp [hd]]
    rw [hn]
    rw [show ((some n == some k.devid) : Bool) = (n == k.devid) from rfl]
    simp

theorem elemLines_plain (x : PValue) (i : Nat) (hx : PValue.isObj x = false) :
    elemLines (i, x) = [Line.indexed i x] := by
  cases x with
  | atom s => rfl
  | seq vs => rfl
  | obj c a => simp [PValue.isObj] at hx

theorem flatMap_elemLines_plain (vs : List PValue)
    (h : ∀ x ∈ vs, PValue.isObj x = false) :
    ∀ i : Nat, (enumFrom i vs).flatMap elemLines
      = (enumFrom i vs).map (fun q => Line.indexed q.1 q.2) := by
  induction vs with
  | nil => intro i; rfl
  | cons x xs ih =>
    intro i
    rw [enumFrom, List.flatMap_cons, List.map_cons]
    rw [elemLines_plain x i (h x (by simp))]
    rw [ih (fun x' hx' => h x' (by simp [hx'])) (i + 1)]
    rfl

theorem recLines_seq_plain (k : SKey) (vs : List PValue)
    (h : ∀ x ∈ vs, PValue.isObj x = false) :
    recLines k (.seq vs) = Line.header k.devid k.objid k.propid ::
      (enumFrom 0 vs).map (fun q => Line.indexed q.1 q.2) := by
  rw [recLines, flatMap_elemLines_plain vs h 0]

theorem dumpLoop_eq (fdev fobj fprop : String)
    (h : fdev = "-" ∨ (parseIntOpt fdev).isSome = true) :
    ∀ recs : Replay.Shelf,
      dumpLoop fdev fobj fprop recs =
        .ok ((recs.filter (fun e => dumpMatch fdev fobj fprop e.1)).flatMap
          (fun e => recLines e.1 e.2)) := by
  intro recs
  induction recs with
  | nil => rfl
  | cons e rest ih =>
    obtain ⟨k, v⟩ := e
    rw [dumpLoop, matchE_ok fdev fobj fprop k h]
    rcases hm : dumpMatch fdev fobj fprop k with _ | _
    · rw [ih]
      rw [List.filter_cons_of_neg (by simpa using hm)]
    · rw [ih]
      rw [List.filter_cons_of_pos (by simpa using hm), List.flatMap_cons]

end Dump

/-! ### The claims -/

/-- Claim C1, evidence of the code bug: on a store holding exactly the
record (101, "device:101", "description"), `db.py` `Snapshot.items` with
filters devid=101 and objid="device:101" yields exactly that record, but
`replay.py` `Snapshot.items` with the same filters yields nothing: after
its whole-identifier check succeeds, the type-match step compares the full
object identifier with its own type part (`if o != ot`) and skips every
record whose object identifier contains a colon, so the claimed equality
filtering fails for the replay store whenever an object filter is
supplied. -/
theorem c1_objid_filter_divergence :
    Replay.items [(⟨101, "device:101", "description"⟩, PValue.atom "x")]
        (some 101) (some "device:101") none = ([], none)
    ∧ Db.items [⟨⟨101, "device:101", "description"⟩, pickleDumps (PValue.atom "x")⟩]
        (some 101) (some "device:101") none
      = ([⟨101, "device:101", "description", PValue.atom "x"⟩], none) := by
  constructor
  · rfl
  · rfl

/-- Claim C2, evidence of the code bug: building the device model over a
store that holds objectName, vendorIdentifier and a device-level
"description" record under the device's own object identifier produces a
device descriptor with an empty assigned-property map — the
"description" record is silently dropped (the device-property loop
iterates `items(device_id, device_object_id)`, which yields nothing
because of the object-filter bug), contradicting the claim that every
non-excluded device-level record is assigned. -/
theorem c2_device_properties_dropped :
    Replay.replayAppInit
      [(⟨101, "device:101", "objectName"⟩, PValue.atom "app-101"),
       (⟨101, "device:101", "vendorIdentifier"⟩, PValue.atom "15"),
       (⟨101, "device:101", "description"⟩, PValue.atom "a description")] 101
      = .ok ⟨⟨PValue.atom "app-101", ("device", 101), PValue.atom "15", []⟩, []⟩ := by
  rfl

/-- Claim C3: set(k, v1) then set(k, v2) leaves exactly one record for k
whose value is v2 in both stores — the filtered row set is the singleton
holding v2 (pickled, for the sqlite store), and a db.py read of k returns
v2; this covers the insert path (k absent) and the update path (k present)
since the store argument is arbitrary subject to the primary-key
invariant. -/
theorem c3_upsert_exactly_one (db : Db.Snapshot) (sh : Replay.Shelf) (k : SKey)
    (v1 v2 : PValue)
    (hdb : (db.map Db.Row.key).Nodup) (hsh : (sh.map Prod.fst).Nodup) :
    (Db.setitem (Db.setitem db k v1) k v2).filter (fun r => r.key == k)
        = [⟨k, pickleDumps v2⟩]
    ∧ Db.getitem (Db.setitem (Db.setitem db k v1) k v2) k = .ok (some v2)
    ∧ (Replay.setitem (Replay.setitem sh k v1) k v2).filter (fun e => e.1 == k)
        = [(k, v2)] := by
  refine ⟨?_, ?_, ?_⟩
  · exact Db.setitem_filter _ k v2 (Db.setitem_nodup db k v1 hdb)
  · exact Db.getitem_setitem _ k v2
  · exact Replay.shelf_setitem_filter _ k v2 (Replay.shelf_setitem_nodup sh k v1 hsh)

/-- Witness for C3 at a concrete key and values, on initially empty
stores (exercising the insert path then the update path). -/
theorem c3_upsert_exactly_one_witness :
    (Db.setitem (Db.setitem [] ⟨7, "analog-input:3", "presentValue"⟩ (PValue.atom "1"))
        ⟨7, "analog-input:3", "presentValue"⟩ (PValue.atom "2")).filter
        (fun r => r.key == ⟨7, "analog-input:3", "presentValue"⟩)
      = [⟨⟨7, "analog-input:3", "presentValue"⟩, pickleDumps (PValue.atom "2")⟩]
    ∧ Db.getitem (Db.setitem (Db.setitem [] ⟨7, "analog-input:3", "presentValue"⟩
          (PValue.atom "1")) ⟨7, "analog-input:3", "presentValue"⟩ (PValue.atom "2"))
        ⟨7, "analog-input:3", "presentValue"⟩ = .ok (some (PValue.atom "2"))
    ∧ (Replay.setitem (Replay.setitem [] ⟨7, "analog-input:3", "presentValue"⟩
          (PValue.atom "1")) ⟨7, "analog-input:3", "presentValue"⟩ (PValue.atom "2")).filter
        (fun e => e.1 == ⟨7, "analog-input:3", "presentValue"⟩)
      = [(⟨7, "analog-input:3", "presentValue"⟩, PValue.atom "2")] :=
  c3_upsert_exactly_one [] [] ⟨7, "analog-input:3", "presentValue"⟩
    (PValue.atom "1") (PValue.atom "2") (by simp) (by simp)

/-- Claim C4: set(k, v) followed by get(k) on the db.py store returns a
value structurally equal to v, for every store state, key, and
serializable value — including nested sequences and object-like values
with auxiliary inspection data, which `PValue` quantifies over. -/
theorem c4_set_get_roundtrip (db : Db.Snapshot) (k : SKey) (v : PValue) :
    Db.getitem (Db.setitem db k v) k = .ok (some v) :=
  Db.getitem_setitem db k v

/-- Claim C5, counterexample: `replay.py` `Snapshot.__getitem__` on a key
never written does not return an absent sentinel — it raises `KeyError`
(shown here on the empty shelf), so the claim as stated fails for the
replay store. -/
theorem c5_replay_absent_key_raises :
    Replay.getitem ([] : Replay.Shelf) ⟨1, "device:1", "objectName"⟩
      = .error (.keyError ⟨1, "device:1", "objectName"⟩) := rfl

/-- Claim C5 as amended: for a key never written, the db.py store's get
returns the `None` sentinel without failing, while the replay.py store's
get raises `KeyError` (which its callers catch). -/
theorem c5_absent_key_amended (db : Db.Snapshot) (sh : Replay.Shelf) (k : SKey)
    (hdb : ∀ r ∈ db, r.key ≠ k) (hsh : ∀ e ∈ sh, e.1 ≠ k) :
    Db.getitem db k = .ok none ∧ Replay.getitem sh k = .error (.keyError k) :=
  ⟨Db.getitem_absent db k hdb, Replay.shelf_getitem_absent sh k hsh⟩

/-- Witness for the amended C5 on empty stores at a concrete key. -/
theorem c5_absent_key_amended_witness :
    Db.getitem [] ⟨2, "device:2", "objectName"⟩ = .ok none
    ∧ Replay.getitem [] ⟨2, "device:2", "objectName"⟩
        = .error (.keyError ⟨2, "device:2", "objectName"⟩) :=
  c5_absent_key_amended [] [] ⟨2, "device:2", "objectName"⟩ (by simp) (by simp)

/-- Claim C6: if a device's object row lacks objectName or
vendorIdentifier, constructing its device model raises a
`ConfigurationError` whose message names the missing property and the
device, and `main` over any device list containing that device exits with
status 1 after the one-line configuration error message, starting no
network node (the well-formedness hypothesis rules out the unrelated
uncaught `ValueError` of malformed stored object identifiers). -/
theorem c6_missing_mandatory_property (sh : Replay.Shelf) (devids : List Int) (d : Int)
    (hwf : Replay.wfShelf sh = true) (hd : d ∈ devids)
    (hmiss : alookup sh ⟨d, Replay.deviceObjId d, "objectName"⟩ = none ∨
      alookup sh ⟨d, Replay.deviceObjId d, "vendorIdentifier"⟩ = none) :
    Replay.replayAppInit sh d = .error (.config
      (if (alookup sh ⟨d, Replay.deviceObjId d, "objectName"⟩).isNone
       then "device " ++ intStr d ++ ": object name not found"
       else "device " ++ intStr d ++ ": vendor identifier not found"))
    ∧ (∃ m, Replay.mainModel devids sh = .exit1 ("configuration err: " ++ m))
    ∧ (Replay.mainModel devids sh).isRunning = false := by
  have h1 := Replay.replayAppInit_missing sh d hmiss
  have h2 := Replay.mainModel_exit1 sh devids d _ hwf hd h1
  refine ⟨h1, h2, ?_⟩
  obtain ⟨m, hm⟩ := h2
  rw [hm]
  rfl

/-- Witness for C6: the empty store lacks every property; device 5 fails
with the object-name message and the CLI exits 1. -/
theorem c6_missing_mandatory_property_witness :
    Replay.replayAppInit [] 5 = .error (.config
      (if (alookup ([] : Replay.Shelf) ⟨5, Replay.deviceObjId 5, "objectName"⟩).isNone
       then "device " ++ intStr 5 ++ ": object name not found"
       else "device " ++ intStr 5 ++ ": vendor identifier not found"))
    ∧ (∃ m, Replay.mainModel [5] [] = .exit1 ("configuration err: " ++ m))
    ∧ (Replay.mainModel [5] []).isRunning = false :=
  c6_missing_mandatory_property [] [5] 5 rfl (by simp) (.inl rfl)

/-- Claim C7: whenever `main` reaches the running topology, the first
supplied device identifier is the router node at simulated-segment
address 1 and the remaining identifiers occupy sequential addresses
starting at 2, in input order. -/
theorem c7_topology_addressing (devids : List Int) (sh : Replay.Shelf)
    (topo : Replay.Topology)
    (h : Replay.mainModel devids sh = .running topo) :
    topo.router = (1, devids.headI)
    ∧ topo.peers = enumFrom 2 (devids.drop 1) :=
  Replay.mainModel_running_shape devids sh topo h

/-- Witness for C7: a store with the mandatory rows for devices 100 and
200 runs, with the router at address 1 and the peer at address 2. -/
theorem c7_topology_addressing_witness :
    (⟨(1, 100), [(2, 200)]⟩ : Replay.Topology).router
        = (1, ([100, 200] : List Int).headI)
    ∧ (⟨(1, 100), [(2, 200)]⟩ : Replay.Topology).peers
        = enumFrom 2 (([100, 200] : List Int).drop 1) :=
  c7_topology_addressing [100, 200]
    [(⟨100, "device:100", "objectName"⟩, PValue.atom "Router"),
     (⟨100, "device:100", "vendorIdentifier"⟩, PValue.atom "15"),
     (⟨200, "device:200", "objectName"⟩, PValue.atom "Peer"),
     (⟨200, "device:200", "vendorIdentifier"⟩, PValue.atom "15")]
    ⟨(1, 100), [(2, 200)]⟩ rfl

/-- Claim C8: the object-building step groups the records it is given by
object identifier — the lookup of property p under identifier o is the
last matching record's value (last write wins), each identifier owns at
most one group, a group exists exactly when some record carries that
identifier (excluding "-" and the device's own), and the constructed
instance's type and instance number come from splitting the identifier at
the colon. -/
theorem c8_object_grouping (recs : List ItemRec) (dev : Int) (o p t iStr : String)
    (n : Int) (props : List (String × PValue))
    (ho : ¬(o = "-" ∨ o = Replay.deviceObjId dev))
    (hsplit : pysplit o ':' = [t, iStr])
    (hn : parseIntOpt iStr = some n) :
    Replay.groupLookup (Replay.buildObjPropMap (Replay.deviceObjId dev) recs) o p
      = ((recs.filter (fun r => r.objid == o && r.propid == p)).getLast?).map
          (fun r => r.value)
    ∧ ((Replay.buildObjPropMap (Replay.deviceObjId dev) recs).map Prod.fst).Nodup
    ∧ (o ∈ (Replay.buildObjPropMap (Replay.deviceObjId dev) recs).map Prod.fst
        ↔ ∃ r ∈ recs, r.objid = o)
    ∧ Replay.mkObjDescriptor (o, props) = .ok ⟨t, n, props⟩ := by
  refine ⟨?_, ?_, ?_, ?_⟩
  · exact Replay.buildObjPropMap_lookup _ o p ho recs
  · exact Replay.buildObjPropMap_keys_nodup _ recs
  · rw [Replay.buildObjPropMap_mem_keys]
    constructor
    · rintro ⟨r, hr, hro, _⟩
      exact ⟨r, hr, hro⟩
    · rintro ⟨r, hr, hro⟩
      exact ⟨r, hr, hro, ho⟩
  · rw [Replay.mkObjDescriptor]
    simp only [hsplit, hn]

/-- Witness for C8: two records under "analog-input:3" with different
property names, for device 1. -/
theorem c8_object_grouping_witness :
    Replay.groupLookup (Replay.buildObjPropMap (Replay.deviceObjId 1)
        [⟨1, "analog-input:3", "presentValue", PValue.atom "72"⟩,
         ⟨1, "analog-input:3", "units", PValue.atom "degF"⟩]) "analog-input:3" "units"
      = ((([⟨1, "analog-input:3", "presentValue", PValue.atom "72"⟩,
           ⟨1, "analog-input:3", "units", PValue.atom "degF"⟩] : List ItemRec).filter
          (fun r => r.objid == "analog-input:3" && r.propid == "units")).getLast?).map
          (fun r => r.value)
    ∧ ((Replay.buildObjPropMap (Replay.deviceObjId 1)
        [⟨1, "analog-input:3", "presentValue", PValue.atom "72"⟩,
         ⟨1, "analog-input:3", "units", PValue.atom "degF"⟩]).map Prod.fst).Nodup
    ∧ ("analog-input:3" ∈ (Replay.buildObjPropMap (Replay.deviceObjId 1)
        [⟨1, "analog-input:3", "presentValue", PValue.atom "72"⟩,
         ⟨1, "analog-input:3", "units", PValue.atom "degF"⟩]).map Prod.fst
        ↔ ∃ r ∈ ([⟨1, "analog-input:3", "presentValue", PValue.atom "72"⟩,
            ⟨1, "analog-input:3", "units", PValue.atom "degF"⟩] : List ItemRec),
            r.objid = "analog-input:3")
    ∧ Replay.mkObjDescriptor ("analog-input:3", [("presentValue", PValue.atom "72")])
        = .ok ⟨"analog-input", 3, [("presentValue", PValue.atom "72")]⟩ :=
  c8_object_grouping
    [⟨1, "analog-input:3", "presentValue", PValue.atom "72"⟩,
     ⟨1, "analog-input:3", "units", PValue.atom "degF"⟩]
    1 "analog-input:3" "units" "analog-input" "3" 3
    [("presentValue", PValue.atom "72")] (by decide) rfl rfl

/-- Claim C9: the dump loop prints exactly the records matching the three
filters ("-" imposing no constraint, anything else exact equality on the
corresponding field), and a list-valued record prints as a header line
followed by one indexed line per element. -/
theorem c9_dump_filters (recs : Replay.Shelf) (fdev fobj fprop : String)
    (k : SKey) (vs : List PValue)
    (h : fdev = "-" ∨ (parseIntOpt fdev).isSome = true)
    (hvs : ∀ x ∈ vs, Dump.PValue.isObj x = false) :
    Dump.dumpLoop fdev fobj fprop recs =
      .ok ((recs.filter (fun e => Dump.dumpMatch fdev fobj fprop e.1)).flatMap
        (fun e => Dump.recLines e.1 e.2))
    ∧ Dump.recLines k (.seq vs) = Dump.Line.header k.devid k.objid k.propid ::
        (enumFrom 0 vs).map (fun q => Dump.Line.indexed q.1 q.2) :=
  ⟨Dump.dumpLoop_eq fdev fobj fprop h recs, Dump.recLines_seq_plain k vs hvs⟩

/-- Witness for C9 at a concrete store, a numeric device filter, and a
two-element list value. -/
theorem c9_dump_filters_witness :
    Dump.dumpLoop "1" "-" "-"
      [(⟨1, "analog-input:0", "presentValue"⟩,
          PValue.seq [PValue.atom "a", PValue.atom "b"]),
       (⟨2, "device:2", "objectName"⟩, PValue.atom "x")] =
      .ok ((([(⟨1, "analog-input:0", "presentValue"⟩,
          PValue.seq [PValue.atom "a", PValue.atom "b"]),
        (⟨2, "device:2", "objectName"⟩, PValue.atom "x")] : Replay.Shelf).filter
          (fun e => Dump.dumpMatch "1" "-" "-" e.1)).flatMap
        (fun e => Dump.recLines e.1 e.2))
    ∧ Dump.recLines ⟨1, "analog-input:0", "presentValue"⟩
        (.seq [PValue.atom "a", PValue.atom "b"])
      = Dump.Line.header (⟨1, "analog-input:0", "presentValue"⟩ : SKey).devid
          (⟨1, "analog-input:0", "presentValue"⟩ : SKey).objid
          (⟨1, "analog-input:0", "presentValue"⟩ : SKey).propid ::
        (enumFrom 0 [PValue.atom "a", PValue.atom "b"]).map
          (fun q => Dump.Line.indexed q.1 q.2) :=
  c9_dump_filters
    [(⟨1, "analog-input:0", "presentValue"⟩,
        PValue.seq [PValue.atom "a", PValue.atom "b"]),
     (⟨2, "device:2", "objectName"⟩, PValue.atom "x")]
    "1" "-" "-" ⟨1, "analog-input:0", "presentValue"⟩
    [PValue.atom "a", PValue.atom "b"] (.inr rfl)
    (by
      intro x hx
      simp only [List.mem_cons, List.not_mem_nil, or_false] at hx
      rcases hx with rfl | rfl <;> rfl)

/-- Claim C10: with an object-identifier filter containing no colon, the
replay.py iteration raises the tuple-unpacking `ValueError` whenever the
shelf holds a record that passes the device filter and whose object
identifier does not split at ":" into exactly two parts — the iteration's
terminal outcome is the error rather than yielding or skipping that
record. -/
theorem c10_items_objid_unpack_error (sh : Replay.Shelf) (devf : Option Int)
    (s : String) (propf : Option String) (e : SKey × PValue)
    (hs : ∀ c ∈ s.data, c ≠ ':') (he : e ∈ sh)
    (hdev : devPass devf e.1 = true)
    (hbad : (pysplit e.1.objid ':').length ≠ 2) :
    (Replay.items sh devf (some s) propf).2 = some (.valueError "unpack") := by
  have hinst : ((pysplit (s ++ ":") ':').take 2).getD 1 "" = "" := by
    rw [pysplit_append_colon s hs]
    rfl
  show (Replay.itemsLoop devf (some s) propf
      (((pysplit (s ++ ":") ':').take 2).getD 1 "") sh).2 = _
  rw [hinst]
  exact Replay.itemsLoop_some_err devf s propf sh ⟨e, he, hdev, hbad⟩

/-- Witness for C10: the filter "analog-input" has no colon and the
stored record under object identifier "-" (which splits into one part)
passes the absent device filter, so the iteration errors. -/
theorem c10_items_objid_unpack_error_witness :
    (Replay.items [(⟨3, "-", "objectName"⟩, PValue.atom "x")] none
        (some "analog-input") none).2 = some (.valueError "unpack") :=
  c10_items_objid_unpack_error [(⟨3, "-", "objectName"⟩, PValue.atom "x")] none
    "analog-input" none (⟨3, "-", "objectName"⟩, PValue.atom "x")
    (by decide) (by simp) rfl (by decide)
